import Mathlib

/-!
Shallow embedding of `src/quest.py`, a turn-based dungeon-crawl engine.

Modelling conventions:
* Python objects are identity-referenced; in the game every `Field` object is
  registered at its grid cell (`self.board[position] = self` in `Field.__init__`)
  and positions are unique, so tiles are identified here by their `(row, col)`
  position and players by their `name` (theorems that need it assume distinct
  names, which is how the game uses them).
* Machine integers are `Int` (Python ints are unbounded; health may go negative).
* Code that would raise an uncaught Python exception is modelled with `Option`
  (`none` = the program aborts) where a claim depends on it; attribute accesses
  that cannot fail on the states the theorems quantify over are totalised with
  an explicitly marked placeholder.
* Logging statements are omitted: they do not change engine state.
-/

/-- The five tile classes of `quest.py`: `Field` (plain), `Wall`, `Altar`,
`Golem`, `EmptySpace` (`Board.SYMBOLS` maps 'f','w','a','g','e' to them). -/
inductive FieldKind where
  | field
  | wall
  | altar
  | golem
  | emptySpace
deriving DecidableEq, Repr

/-- State of one tile (class `Field` and subclasses).  `position` is the
`(row, col)` pair passed at construction; `players` is the occupant list
(back-references, stored as player names); `_has_key` is the private flag
behind the `has_key` property. -/
structure FieldState where
  kind : FieldKind
  position : Nat × Nat
  is_white : Bool
  is_fire : Bool
  is_available : Bool
  players : List String
  _has_key : Bool
deriving DecidableEq, Repr

/-- State of class `Board`: the 2-D grid (row-major, like the numpy array
`self.board`), the derived `key_location`, and the burning list (stored as
positions; the source stores the `Field` objects and serializes their
`position`s, which is the same data under the position-as-identity view). -/
structure BoardState where
  grid : List (List FieldState)
  key_location : Option (Nat × Nat)
  burning_fields : List (Nat × Nat)
deriving DecidableEq, Repr

/-- State of class `Player`.  `_current_field` is the private attribute behind
the `current_field` property (a tile position, or `none` before placement). -/
structure PlayerState where
  name : String
  health : Int
  previous_fields : List (Nat × Nat)
  _current_field : Option (Nat × Nat)
  number_of_actions : Int
  number_of_medicine : Int
  has_key : Bool
  is_win : Bool
  is_escaped : Bool
deriving DecidableEq, Repr

def Player.MAX_HEALTH : Int := 5

def Player.NUMBER_OF_MEDICINE : Int := 3

/-- Placeholder returned when a position is looked up outside the board.  In
the source such a lookup raises; every theorem below either supplies validity
hypotheses excluding it or models the raise with `Option`.  Its
`is_available := false` ensures an availability hypothesis forces a real cell. -/
def defaultField : FieldState :=
  { kind := FieldKind.wall, position := (0, 0), is_white := false,
    is_fire := false, is_available := false, players := [], _has_key := false }

/-- `board[pos]` for an in-range construction position (`Board.__getitem__`
with the non-negative tuple index used everywhere outside `Game.turn`). -/
def Board.atPos (b : BoardState) (c : Nat × Nat) : FieldState :=
  ((b.grid[c.1]?.getD [])[c.2]?).getD defaultField

/-- Mutation of the tile object registered at position `c`: the source mutates
the `Field` object in place; here the grid cell whose stored `position` is `c`
is rewritten (construction makes stored positions equal to grid indices). -/
def Board.updatePos (b : BoardState) (c : Nat × Nat) (φ : FieldState → FieldState) :
    BoardState :=
  { b with grid := b.grid.map (fun row => row.map
      (fun f => if f.position = c then φ f else f)) }

/-- `Board.__getitem__` as used by `Game.turn` with a possibly out-of-range
`(pos_x + dx, pos_y + dy)`: numpy integer indexing.  An index `i` with
`-h ≤ i < 0` wraps to `i + h`; an index outside `[-h, h)` raises `IndexError`
(modelled as `none`, which in `Game.turn` is an uncaught, program-aborting
exception). -/
def Board.getItem (b : BoardState) (idx : Int × Int) : Option FieldState :=
  let h : Int := b.grid.length
  if idx.1 < -h ∨ h ≤ idx.1 then none
  else
    match b.grid[(if idx.1 < 0 then idx.1 + h else idx.1).toNat]? with
    | none => none
    | some row =>
      let w : Int := row.length
      if idx.2 < -w ∨ w ≤ idx.2 then none
      else row[(if idx.2 < 0 then idx.2 + w else idx.2).toNat]?

/-- The `has_key` property setter of class `Field`:
`self.board.key_location = self.position if value else None` (unconditional),
then `self._has_key = value`. -/
def FieldState.has_key_set (b : BoardState) (c : Nat × Nat) (value : Bool) :
    BoardState :=
  let b1 := { b with key_location := if value then some c else none }
  Board.updatePos b1 c (fun f => { f with _has_key := value })

/-- `Player.hurt(damage)`: unconditional decrement, no lower clamp. -/
def Player.hurt (p : PlayerState) (damage : Int) : PlayerState :=
  { p with health := p.health - damage }

/-- `Player.die()`: health set to 0 (flags untouched). -/
def Player.die (p : PlayerState) : PlayerState :=
  { p with health := 0 }

/-- `Player.full_recovery()`. -/
def Player.full_recovery (p : PlayerState) : PlayerState :=
  { p with health := Player.MAX_HEALTH }

/-- `Player.is_alive` property. -/
def Player.is_alive (p : PlayerState) : Bool :=
  0 < p.health

/-- `Field.effect_on_player` and its overrides.  Base: 1 fire damage if the
tile burns.  `Altar`: base, then full heal.  `Golem`: base, then win with the
key, death without it.  `Wall`/`EmptySpace`/plain `Field` inherit the base. -/
def FieldState.effect_on_player (f : FieldState) (p : PlayerState) : PlayerState :=
  let base := fun (q : PlayerState) => if f.is_fire then Player.hurt q 1 else q
  match f.kind with
  | FieldKind.altar => Player.full_recovery (base p)
  | FieldKind.golem =>
      let q := base p
      if q.has_key then { q with is_win := true } else Player.die q
  | _ => base p

/-- `Field.player_enters` (with the `Wall` override).  For a non-wall tile:
if the player already stands somewhere this is movement, so the old tile's
occupant list drops the player (`player_leaves`, `list.remove` = first
occurrence) and the tile effect runs; in every case the player is appended to
this tile's occupant list.  `Wall.player_enters` only deals 1 damage and never
touches occupancy. -/
def FieldState.player_enters (b : BoardState) (c : Nat × Nat) (p : PlayerState) :
    BoardState × PlayerState :=
  if (Board.atPos b c).kind = FieldKind.wall then
    (b, Player.hurt p 1)
  else
    match p._current_field with
    | some old =>
        let b1 := Board.updatePos b old
          (fun g => { g with players := g.players.erase p.name })
        let p1 := FieldState.effect_on_player (Board.atPos b1 c) p
        let b2 := Board.updatePos b1 c
          (fun g => { g with players := g.players ++ [p.name] })
        (b2, p1)
    | none =>
        (Board.updatePos b c (fun g => { g with players := g.players ++ [p.name] }), p)

/-- The `current_field` property setter of class `Player`.  A destination
already in `previous_fields` is a retreat: `die()`, set the escape flag,
return at once.  Otherwise `field.player_enters(self)` runs; if the field is
available, the previous-fields bookkeeping runs (only when this is movement
and the destination is white: a white old tile REPLACES the whole list,
an orange old tile is appended) and the pointer advances. -/
def Player.current_field_set (b : BoardState) (p : PlayerState) (c : Nat × Nat) :
    BoardState × PlayerState :=
  if c ∈ p.previous_fields then
    (b, { p with health := 0, is_escaped := true })
  else
    let s1 := FieldState.player_enters b c p
    let b1 := s1.1
    let p1 := s1.2
    let f := Board.atPos b1 c
    if f.is_available then
      let p2 :=
        match p1._current_field with
        | some old =>
          if f.is_white then
            if (Board.atPos b1 old).is_white then
              { p1 with previous_fields := [old] }
            else
              { p1 with previous_fields := p1.previous_fields ++ [old] }
          else p1
        | none => p1
      (b1, { p2 with _current_field := some c })
    else (b1, p1)

/-- `Player.spend_action(value)`. -/
def Player.spend_action (p : PlayerState) (value : Int) : PlayerState :=
  { p with number_of_actions := p.number_of_actions - value }

/-- `Player.move(field)`: the `current_field` setter, then spend one action. -/
def Player.move (b : BoardState) (p : PlayerState) (c : Nat × Nat) :
    BoardState × PlayerState :=
  let s := Player.current_field_set b p c
  (s.1, Player.spend_action s.2 1)

/-- `Player.strike(other)`: the other player takes 1 damage. -/
def Player.strike (other : PlayerState) : PlayerState :=
  Player.hurt other 1

/-- `Player.heal()`: with medicine left, spend one unit, clamp health at
`MAX_HEALTH`, spend one action; otherwise a reported no-op. -/
def Player.heal (p : PlayerState) : PlayerState :=
  if 0 < p.number_of_medicine then
    Player.spend_action
      { p with number_of_medicine := p.number_of_medicine - 1,
               health := min (p.health + 1) Player.MAX_HEALTH } 1
  else p

/-- `Player.take_key()`: if the current tile holds the key, take it (routing
the release through the tile's `has_key` setter) and spend one action;
otherwise a reported no-op.  A player with no current tile would raise in the
source; that state is outside every theorem below (modelled as a no-op). -/
def Player.take_key (b : BoardState) (p : PlayerState) : BoardState × PlayerState :=
  match p._current_field with
  | none => (b, p)
  | some c =>
    if (Board.atPos b c)._has_key then
      let p1 := { p with has_key := true }
      let b1 := FieldState.has_key_set b c false
      (b1, Player.spend_action p1 1)
    else (b, p)

/-- `Player.drop_key()`: unconditional, free transfer of a held key to the
current tile (silent no-op without a key). -/
def Player.drop_key (b : BoardState) (p : PlayerState) : BoardState × PlayerState :=
  if p.has_key then
    match p._current_field with
    | none => (b, p)
    | some c => (FieldState.has_key_set b c true, { p with has_key := false })
  else (b, p)

/-- The whole game state: the board plus the roster `Game.players` (in order). -/
structure GameState where
  board : BoardState
  players : List PlayerState
deriving DecidableEq, Repr

/-- `Player.strike_all_in_the_field()`: if the current tile's occupant list
has anyone besides the striker (`len > 1`), every other occupant takes 1
damage and one action is spent; alone, a reported no-op.  The source iterates
the tile's object list; with distinct player names this hurts exactly the
roster members whose names sit on the tile. -/
def Player.strike_all_in_the_field (g : GameState) (selfName : String) : GameState :=
  match g.players.find? (fun q => q.name = selfName) with
  | none => g
  | some self =>
    match self._current_field with
    | none => g
    | some c =>
      if 1 < (Board.atPos g.board c).players.length then
        let roster := g.players.map (fun q =>
          if q.name ≠ selfName ∧ q.name ∈ (Board.atPos g.board c).players
          then Player.hurt q 1 else q)
        { g with players := roster.map (fun q =>
            if q.name = selfName then Player.spend_action q 1 else q) }
      else g

/-- Indexed map used to render the template (`for i ... for j ...`). -/
def mapWithIndex (f : Nat → α → β) : List α → Nat → List β
  | [], _ => []
  | a :: as, i => f i a :: mapWithIndex f as (i + 1)

/-- `Board.SYMBOLS[ch](self, position=(i, j))`: one freshly constructed tile.
The fixed template only contains the five mapped symbols ('a','f','w','g','e');
any other character would raise `KeyError` in the source. -/
def mkField (ch : Char) (pos : Nat × Nat) : FieldState :=
  if ch = 'a' then
    { kind := FieldKind.altar, position := pos, is_white := true,
      is_fire := false, is_available := true, players := [], _has_key := false }
  else if ch = 'f' then
    { kind := FieldKind.field, position := pos, is_white := true,
      is_fire := false, is_available := true, players := [], _has_key := false }
  else if ch = 'w' then
    { kind := FieldKind.wall, position := pos, is_white := false,
      is_fire := false, is_available := false, players := [], _has_key := false }
  else if ch = 'g' then
    { kind := FieldKind.golem, position := pos, is_white := true,
      is_fire := false, is_available := true, players := [], _has_key := false }
  else
    { kind := FieldKind.emptySpace, position := pos, is_white := false,
      is_fire := false, is_available := true, players := [], _has_key := false }

/-- One step of the burning-fields loop in `Board.create_board`:
`field.is_fire = True; self.burning_fields.append(field)`. -/
def burnStep (b : BoardState) (pos : Nat × Nat) : BoardState :=
  let b1 := Board.updatePos b pos (fun f => { f with is_fire := true })
  { b1 with burning_fields := b1.burning_fields ++ [pos] }

/-- `Board.__init__` / `Board.create_board`: render the character template
into tiles, mark the orange positions non-white, place the key through the
`has_key` setter (a `None` key field — falsy — is skipped; a position tuple is
always truthy), then mark the given burning positions (an empty or `None`
burning list does nothing). -/
def Board.create (template : List (List Char)) (orange : List (Nat × Nat))
    (key_field : Option (Nat × Nat)) (burning : List (Nat × Nat)) : BoardState :=
  let grid0 := mapWithIndex (fun i row => mapWithIndex (fun j ch => mkField ch (i, j)) row 0) template 0
  let grid1 := grid0.map (fun row => row.map
    (fun f => if f.position ∈ orange then { f with is_white := false } else f))
  let b1 : BoardState := { grid := grid1, key_location := none, burning_fields := [] }
  let b2 := match key_field with
    | some k => FieldState.has_key_set b1 k true
    | none => b1
  burning.foldl burnStep b2

/-- `Board.burn()`: collect the white tiles; with fewer than 4 the
`np.random.choice(..., size=4, replace=False)` call raises `ValueError`
(modelled as `none`, fatal).  Otherwise the draw — passed in here as `pick`,
the list of positions of the 4 chosen white tiles — becomes the new burning
list, and `is_fire` is rewritten on every WHITE tile (and only on white tiles)
to membership in the draw. -/
def Board.burn (b : BoardState) (pick : List (Nat × Nat)) : Option BoardState :=
  let white_fields := (b.grid.flatten).filter (fun f => f.is_white)
  if white_fields.length < 4 then none
  else some
    { b with
      burning_fields := pick,
      grid := b.grid.map (fun row => row.map
        (fun f => if f.is_white then { f with is_fire := decide (f.position ∈ pick) } else f)) }

/-- `Player.__init__`: attributes are assigned in source order; assigning
`self.current_field = current_field` runs the property setter (which may
mutate the board's occupant lists), and only afterwards are
`number_of_actions`, `number_of_medicine`, `has_key`, `is_win`, `is_escaped`
assigned.  A `None`/empty `previous_fields` argument becomes `[]`. -/
def Player.init (b : BoardState) (name : String) (current_field : Nat × Nat)
    (previous_fields : Option (List (Nat × Nat))) (health : Int)
    (number_of_actions : Int) (number_of_medicine : Int) (has_key : Bool) :
    BoardState × PlayerState :=
  let p0 : PlayerState :=
    { name := name, health := health,
      previous_fields := previous_fields.getD [],
      _current_field := none,
      number_of_actions := 1, number_of_medicine := Player.NUMBER_OF_MEDICINE,
      has_key := false, is_win := false, is_escaped := false }
  let s := Player.current_field_set b p0 current_field
  (s.1, { s.2 with
            number_of_actions := number_of_actions,
            number_of_medicine := number_of_medicine,
            has_key := has_key, is_win := false, is_escaped := false })

/-- The snapshot record written for one player (`Player.to_json`). -/
structure PlayerJson where
  name : String
  health : Int
  previous_fields : Option (List (Nat × Nat))
  current_field : Nat × Nat
  number_of_actions : Int
  number_of_medicine : Int
  has_key : Bool
deriving DecidableEq, Repr

/-- The snapshot record written for the board (`Board.to_json`). -/
structure BoardJson where
  burning_fields : List (Nat × Nat)
  key_location : Option (Nat × Nat)
deriving DecidableEq, Repr

/-- The whole save file (`Game.save`, file mechanics excluded). -/
structure SaveJson where
  players : List PlayerJson
  board : BoardJson
deriving DecidableEq, Repr

/-- `Player.to_json`: an empty `previous_fields` list (falsy) serializes as
`None`.  `current_field.position` would raise for a placeless player; every
saved player has a tile, and the theorems assume so (`getD` placeholder). -/
def Player.to_json (p : PlayerState) : PlayerJson :=
  { name := p.name, health := p.health,
    previous_fields := if p.previous_fields = [] then none else some p.previous_fields,
    current_field := p._current_field.getD (0, 0),
    number_of_actions := p.number_of_actions,
    number_of_medicine := p.number_of_medicine,
    has_key := p.has_key }

/-- `Board.to_json`: burning tile positions and the derived key location. -/
def Board.to_json (b : BoardState) : BoardJson :=
  { burning_fields := b.burning_fields, key_location := b.key_location }

/-- The dictionary `Game.save` dumps (players in roster order, then board). -/
def Game.save_json (g : GameState) : SaveJson :=
  { players := g.players.map Player.to_json, board := Board.to_json g.board }

def Game.ORIGINAL_BOARD : List (List Char) :=
  [['e', 'e', 'e', 'e', 'e', 'w', 'w', 'w', 'w', 'e'],
   ['e', 'e', 'e', 'w', 'w', 'a', 'f', 'f', 'g', 'w'],
   ['e', 'e', 'w', 'f', 'w', 'w', 'f', 'w', 'w', 'e'],
   ['e', 'w', 'f', 'f', 'f', 'w', 'f', 'a', 'w', 'e'],
   ['w', 'f', 'f', 'w', 'f', 'f', 'f', 'w', 'e', 'e'],
   ['e', 'w', 'w', 'e', 'w', 'w', 'w', 'e', 'e', 'e']]

def Game.ORANGE_FIELDS : List (Nat × Nat) := [(2, 3), (1, 5), (3, 7)]

def Game.START_FIELD : Nat × Nat := (4, 1)

def Game.KEY_FIELD : Nat × Nat := (2, 3)

/-- The board `Game.__init__` / `Game.new_game` builds. -/
def Game.newBoard : BoardState :=
  Board.create Game.ORIGINAL_BOARD Game.ORANGE_FIELDS (some Game.KEY_FIELD) []

/-- `Game.load_game`: rebuild the board from the fixed template with the saved
key location and burning list, then reconstruct each player in order with
`Player.__init__` (whose `current_field` setter re-registers occupancy). -/
def Game.load_game (save : SaveJson) : GameState :=
  let b0 := Board.create Game.ORIGINAL_BOARD Game.ORANGE_FIELDS
      save.board.key_location save.board.burning_fields
  let s := save.players.foldl
    (fun (acc : BoardState × List PlayerState) pj =>
      let r := Player.init acc.1 pj.name pj.current_field pj.previous_fields
        pj.health pj.number_of_actions pj.number_of_medicine pj.has_key
      (r.1, acc.2 ++ [r.2]))
    (b0, [])
  { board := s.1, players := s.2 }

/-- The movement branch of `Game.turn`: resolve
`self.board[pos_x + dx, pos_y + dy]` with numpy indexing (`none` = uncaught
`IndexError`, aborting the program) and call `player.move` on the tile found. -/
def Game.turn_move (b : BoardState) (p : PlayerState) (d : Int × Int) :
    Option (BoardState × PlayerState) :=
  match p._current_field with
  | none => none
  | some c =>
    match Board.getItem b ((c.1 : Int) + d.1, (c.2 : Int) + d.2) with
    | none => none
    | some f => some (Player.move b p f.position)

/-- Convenience constructor for a player record in a given state (the flags a
fresh `Player.__init__` would produce are `is_win = is_escaped = false`). -/
def mkPlayer (name : String) (health : Int) (prev : List (Nat × Nat))
    (cur : Option (Nat × Nat)) (acts med : Int) (key : Bool) : PlayerState :=
  { name := name, health := health, previous_fields := prev,
    _current_field := cur, number_of_actions := acts, number_of_medicine := med,
    has_key := key, is_win := false, is_escaped := false }

/-- A fresh game: the single player "A" placed on `START_FIELD`, exactly as
`Game.creating_players` does. -/
def c3_s0 : BoardState × PlayerState :=
  Player.init Game.newBoard "A" Game.START_FIELD none 5 1 3 false

def c3_s1 : BoardState × PlayerState := Player.move c3_s0.1 c3_s0.2 (4, 2)

def c3_s2 : BoardState × PlayerState := Player.move c3_s1.1 c3_s1.2 (3, 2)

def c3_s3 : BoardState × PlayerState := Player.move c3_s2.1 c3_s2.2 (3, 3)

def c3_s4 : BoardState × PlayerState := Player.move c3_s3.1 c3_s3.2 (2, 3)

def c3_s5 : BoardState × PlayerState := Player.move c3_s4.1 c3_s4.2 (3, 3)

def c3_s6 : BoardState × PlayerState := Player.move c3_s5.1 c3_s5.2 (3, 4)

/-- Number of white tiles (judged on board `b`) among a list of positions. -/
def whiteCountIn (b : BoardState) (l : List (Nat × Nat)) : Nat :=
  (l.filter (fun q => (Board.atPos b q).is_white)).length

/-- The grid as it stands right after template rendering and orange marking,
before any key/fire placement (the first two stages of `create_board`). -/
def renderGrid (template : List (List Char)) (orange : List (Nat × Nat)) :
    List (List FieldState) :=
  (mapWithIndex (fun i row => mapWithIndex (fun j ch => mkField ch (i, j)) row 0)
      template 0).map
    (fun row => row.map (fun f =>
      if f.position ∈ orange then { f with is_white := false } else f))

/-- The static part shared by every board the game ever builds (the template
and the orange set are compiled-in constants). -/
def staticGrid : List (List FieldState) :=
  renderGrid Game.ORIGINAL_BOARD Game.ORANGE_FIELDS

/-- Cell-level closed form of the key placement of `create_board`. -/
def keyCell (k : Option (Nat × Nat)) (f : FieldState) : FieldState :=
  match k with
  | none => f
  | some kp => if f.position = kp then { f with _has_key := true } else f

/-- The shape of every board state the running game produces: the static grid
decorated with the current burning set (`is_fire` in sync with
`burning_fields`, as `create_board` and `burn` maintain), the key holder flag
in sync with `key_location` (as the `has_key` setter maintains), and the
occupant lists `occ`. -/
def mkReachableBoard (k : Option (Nat × Nat)) (burn : List (Nat × Nat))
    (occ : Nat × Nat → List String) : BoardState :=
  { grid := staticGrid.map (fun row => row.map (fun f =>
      { f with is_fire := decide (f.position ∈ burn),
               _has_key := decide (k = some f.position),
               players := occ f.position })),
    key_location := k,
    burning_fields := burn }

/-- Cell-level closed form of the burning-fields loop of `create_board`. -/
def burnCell (l : List (Nat × Nat)) (f : FieldState) : FieldState :=
  { f with is_fire := f.is_fire || decide (f.position ∈ l) }

/-- Registering a list of loaded players on their tiles, in roster order
(what the `current_field` setter does for each freshly constructed player). -/
def appendAll (B : BoardState) (qs : List PlayerState) : BoardState :=
  qs.foldl (fun b p => Board.updatePos b (p._current_field.getD (0, 0))
    (fun g => { g with players := g.players ++ [p.name] })) B

/-- Cell-level closed form of `appendAll`. -/
def appendCell (qs : List PlayerState) (f : FieldState) : FieldState :=
  let names := (qs.filter
    (fun p => p._current_field.getD (0, 0) = f.position)).map (fun p => p.name)
  { f with players := f.players ++ names }

/-- The conditions a live, saved player always satisfies: it stands on an
available non-wall tile it has not left before, and its terminal flags are
clear (a winning game ends before any save; an escaped player is dead and
removed at the end of its own turn). -/
def playerWfB (b : BoardState) (p : PlayerState) : Bool :=
  match p._current_field with
  | none => false
  | some c =>
      decide (c ∉ p.previous_fields) &&
      decide ((Board.atPos b c).kind ≠ FieldKind.wall) &&
      (Board.atPos b c).is_available &&
      !p.is_win && !p.is_escaped

-- ### Helper lemmas

/-- Reading any cell after a positional in-place update: either the cell is
untouched, or (exactly when its stored position is the updated one) it is the
image under the update. -/
theorem Board.atPos_updatePos (b : BoardState) (old c : Nat × Nat)
    (φ : FieldState → FieldState) :
    Board.atPos (Board.updatePos b old φ) c = Board.atPos b c ∨
      (Board.atPos (Board.updatePos b old φ) c = φ (Board.atPos b c) ∧
        (Board.atPos b c).position = old) := by
  unfold Board.atPos Board.updatePos
  simp only [List.getElem?_map]
  rcases hg : b.grid[c.1]? with _ | row
  · simp [hg]
  · simp only [hg, Option.map_some', Option.getD_some, List.getElem?_map]
    rcases hr : row[c.2]? with _ | f
    · simp [hr]
    · simp only [hr, Option.map_some', Option.getD_some]
      by_cases hp : f.position = old
      · right; simp [hp]
      · left; simp [hp]

/-- `player_enters` never changes a tile's static data nor its fire state:
only occupant lists move. -/
theorem FieldState.player_enters_board_static (b : BoardState) (c : Nat × Nat)
    (p : PlayerState) (q : Nat × Nat) :
    (Board.atPos (FieldState.player_enters b c p).1 q).is_white =
        (Board.atPos b q).is_white ∧
      (Board.atPos (FieldState.player_enters b c p).1 q).is_fire =
        (Board.atPos b q).is_fire ∧
      (Board.atPos (FieldState.player_enters b c p).1 q).kind =
        (Board.atPos b q).kind ∧
      (Board.atPos (FieldState.player_enters b c p).1 q).is_available =
        (Board.atPos b q).is_available := by
  unfold FieldState.player_enters
  by_cases hw : (Board.atPos b c).kind = FieldKind.wall
  · simp [hw]
  · simp only [hw, if_false]
    rcases hc : p._current_field with _ | old
    · simp only
      rcases Board.atPos_updatePos b c q
        (fun g => { g with players := g.players ++ [p.name] }) with h | ⟨h, _⟩ <;>
        simp [h]
    · simp only
      have h1 := Board.atPos_updatePos b old q
        (fun g => { g with players := g.players.erase p.name })
      rcases h1 with h1 | ⟨h1, _⟩ <;>
      · have h2 := Board.atPos_updatePos
          (Board.updatePos b old (fun g => { g with players := g.players.erase p.name })) c q
          (fun g => { g with players := g.players ++ [p.name] })
        rcases h2 with h2 | ⟨h2, _⟩ <;> simp [h2, h1]

-- ### C1

/-- C1: assigning a tile already in the player's previous-tiles list as the
current field — directly through the setter or through `move` — kills the
player (health 0), sets the escape flag, applies no tile effect and leaves the
board (occupancy) and `_current_field` unchanged, for every tile whatever its
variant; `move` additionally spends its one action. -/
theorem C1_retreat_is_fatal_and_inert (b : BoardState) (p : PlayerState)
    (c : Nat × Nat) (h : c ∈ p.previous_fields) :
    Player.current_field_set b p c = (b, { p with health := 0, is_escaped := true }) ∧
    Player.move b p c =
      (b, { p with health := 0, is_escaped := true,
                   number_of_actions := p.number_of_actions - 1 }) := by
  have h1 : Player.current_field_set b p c =
      (b, { p with health := 0, is_escaped := true }) := by
    unfold Player.current_field_set
    rw [if_pos h]
  exact ⟨h1, by unfold Player.move Player.spend_action; rw [h1]⟩

/-- Witness for C1: on the real board, a player who has left `(3,3)` and asks
to re-enter it dies escaped, with board, pointer and occupancy untouched. -/
theorem C1_retreat_is_fatal_and_inert_witness :
    Player.current_field_set Game.newBoard
        (mkPlayer "A" 5 [(3, 3)] (some (2, 3)) 1 3 false) (3, 3) =
      (Game.newBoard,
        { mkPlayer "A" 5 [(3, 3)] (some (2, 3)) 1 3 false with
            health := 0, is_escaped := true }) ∧
    Player.move Game.newBoard (mkPlayer "A" 5 [(3, 3)] (some (2, 3)) 1 3 false) (3, 3) =
      (Game.newBoard,
        { mkPlayer "A" 5 [(3, 3)] (some (2, 3)) 1 3 false with
            health := 0, is_escaped := true, number_of_actions := 0 }) :=
  C1_retreat_is_fatal_and_inert Game.newBoard
    (mkPlayer "A" 5 [(3, 3)] (some (2, 3)) 1 3 false) (3, 3) (by decide)

-- ### C2

/-- C2 counterexample: on the fresh game board the key lies on `(2,3)`, tile
`(3,3)` does not hold it, yet assigning `has_key = False` on `(3,3)` clears
`Board.key_location` to `None` — the claim says it would be left unchanged. -/
theorem C2_counterexample :
    Game.newBoard.key_location = some (2, 3) ∧
    (Board.atPos Game.newBoard (3, 3))._has_key = false ∧
    (FieldState.has_key_set Game.newBoard (3, 3) false).key_location = none := by
  refine ⟨by decide, by decide, rfl⟩

/-- C2 (amended): assigning `has_key = true` sets `Board.key_location` to this
tile's position; assigning `has_key = false` ALWAYS clears it to `None`,
whether or not this tile currently holds the key; the only per-tile state
changed is this tile's private flag. -/
theorem C2_amended_key_setter (b : BoardState) (c : Nat × Nat) :
    (FieldState.has_key_set b c true).key_location = some c ∧
    (FieldState.has_key_set b c false).key_location = none ∧
    ∀ v, (FieldState.has_key_set b c v).grid =
      (Board.updatePos b c (fun f => { f with _has_key := v })).grid ∧
      (FieldState.has_key_set b c v).burning_fields = b.burning_fields :=
  ⟨rfl, rfl, fun _ => ⟨rfl, rfl⟩⟩

-- ### C6

/-- C6: a non-retreating entry onto a Wall tile deals exactly 1 damage and
changes nothing else: the board — hence every occupant list — and the
player's `_current_field` pointer, previous list and flags are untouched. -/
theorem C6_wall_bounces_and_damages (b : BoardState) (p : PlayerState)
    (c : Nat × Nat) (h1 : c ∉ p.previous_fields)
    (h2 : (Board.atPos b c).kind = FieldKind.wall)
    (h3 : (Board.atPos b c).is_available = false) :
    Player.current_field_set b p c = (b, { p with health := p.health - 1 }) := by
  unfold Player.current_field_set FieldState.player_enters
  rw [if_neg h1, if_pos h2]
  simp [h3, Player.hurt]

/-- Witness for C6: the spec's own scenario — the fresh player at `(4,1)`
steps left into the wall `(4,0)`: health 5 → 4, position still `(4,1)`. -/
theorem C6_wall_bounces_and_damages_witness :
    Player.current_field_set Game.newBoard
        (mkPlayer "A" 5 [] (some (4, 1)) 1 3 false) (4, 0) =
      (Game.newBoard, { mkPlayer "A" 5 [] (some (4, 1)) 1 3 false with health := 4 }) :=
  C6_wall_bounces_and_damages Game.newBoard
    (mkPlayer "A" 5 [] (some (4, 1)) 1 3 false) (4, 0)
    (by decide) (by decide) (by decide)

/-- A movement entry (`player.current_field` non-empty) onto a non-wall tile:
leave the old tile, suffer the new tile's effect, get appended to it. -/
theorem FieldState.player_enters_move (b : BoardState) (c : Nat × Nat)
    (p : PlayerState) (old : Nat × Nat)
    (hw : (Board.atPos b c).kind ≠ FieldKind.wall)
    (hc : p._current_field = some old) :
    FieldState.player_enters b c p =
      (Board.updatePos
          (Board.updatePos b old (fun g => { g with players := g.players.erase p.name })) c
          (fun g => { g with players := g.players ++ [p.name] }),
        FieldState.effect_on_player
          (Board.atPos
            (Board.updatePos b old (fun g => { g with players := g.players.erase p.name })) c)
          p) := by
  unfold FieldState.player_enters
  rw [if_neg hw, hc]

/-- `effect_on_player` only mutates health and the win flag. -/
theorem FieldState.effect_on_player_static (f : FieldState) (p : PlayerState) :
    (FieldState.effect_on_player f p)._current_field = p._current_field ∧
    (FieldState.effect_on_player f p).previous_fields = p.previous_fields ∧
    (FieldState.effect_on_player f p).name = p.name ∧
    (FieldState.effect_on_player f p).number_of_actions = p.number_of_actions ∧
    (FieldState.effect_on_player f p).has_key = p.has_key ∧
    (FieldState.effect_on_player f p).number_of_medicine = p.number_of_medicine ∧
    (FieldState.effect_on_player f p).is_escaped = p.is_escaped := by
  unfold FieldState.effect_on_player Player.hurt Player.die Player.full_recovery
  cases f.kind <;> dsimp only <;> (try split) <;> (try split) <;> simp

/-- Closed form of the Golem tile's effect: fire damage from the base class
first, then the terminal branch — win with the key (health untouched by the
branch), death (health 0) without it. -/
theorem FieldState.effect_on_player_golem (f : FieldState) (p : PlayerState)
    (hk : f.kind = FieldKind.golem) :
    FieldState.effect_on_player f p =
      if p.has_key then
        { p with health := p.health - (if f.is_fire then 1 else 0), is_win := true }
      else
        { p with health := 0 } := by
  unfold FieldState.effect_on_player Player.hurt Player.die
  rw [hk]
  cases hf : f.is_fire <;> cases hkey : p.has_key <;> simp [hf, hkey]

/-- The non-retreat, available-destination branch of the `current_field`
setter: the board is whatever `player_enters` produced, the player is the
entered player with the pointer advanced, and only `previous_fields` may
additionally change (the bookkeeping). -/
theorem Player.current_field_set_advance (b : BoardState) (p : PlayerState)
    (c : Nat × Nat) (h1 : c ∉ p.previous_fields)
    (hav : (Board.atPos (FieldState.player_enters b c p).1 c).is_available = true) :
    (Player.current_field_set b p c).1 = (FieldState.player_enters b c p).1 ∧
    (Player.current_field_set b p c).2.health =
      (FieldState.player_enters b c p).2.health ∧
    (Player.current_field_set b p c).2.is_win =
      (FieldState.player_enters b c p).2.is_win ∧
    (Player.current_field_set b p c).2.is_escaped =
      (FieldState.player_enters b c p).2.is_escaped ∧
    (Player.current_field_set b p c).2.has_key =
      (FieldState.player_enters b c p).2.has_key ∧
    (Player.current_field_set b p c).2.name =
      (FieldState.player_enters b c p).2.name ∧
    (Player.current_field_set b p c).2.number_of_actions =
      (FieldState.player_enters b c p).2.number_of_actions ∧
    (Player.current_field_set b p c).2.number_of_medicine =
      (FieldState.player_enters b c p).2.number_of_medicine ∧
    (Player.current_field_set b p c).2._current_field = some c := by
  unfold Player.current_field_set
  rw [if_neg h1]
  dsimp only
  rw [if_pos hav]
  rcases hc : (FieldState.player_enters b c p).2._current_field with _ | old
  · simp
  · dsimp only
    split <;> (try split) <;> simp

-- ### C7

/-- C7: a non-retreating movement onto the Golem tile: with the key the win
flag becomes true and health drops only by the 1 fire damage when the tile
burns; without the key health becomes 0 (the win flag untouched).  The player
pointer advances onto the Golem tile. -/
theorem C7_golem_terminal (b : BoardState) (p : PlayerState) (c old : Nat × Nat)
    (h1 : c ∉ p.previous_fields)
    (h2 : (Board.atPos b c).kind = FieldKind.golem)
    (h3 : (Board.atPos b c).is_available = true)
    (h4 : p._current_field = some old) :
    (p.has_key = true →
        (Player.current_field_set b p c).2.is_win = true ∧
        (Player.current_field_set b p c).2.health =
          p.health - (if (Board.atPos b c).is_fire then 1 else 0)) ∧
    (p.has_key = false →
        (Player.current_field_set b p c).2.health = 0 ∧
        (Player.current_field_set b p c).2.is_win = p.is_win) ∧
    (Player.current_field_set b p c).2._current_field = some c := by
  have hstat := FieldState.player_enters_board_static b c p c
  have hw : (Board.atPos b c).kind ≠ FieldKind.wall := by rw [h2]; simp
  have hav : (Board.atPos (FieldState.player_enters b c p).1 c).is_available = true := by
    rw [hstat.2.2.2]; exact h3
  have hb1 := Board.atPos_updatePos b old c
    (fun g => { g with players := g.players.erase p.name })
  have hgol : (Board.atPos
      (Board.updatePos b old (fun g => { g with players := g.players.erase p.name })) c).kind
      = FieldKind.golem := by
    rcases hb1 with hb1 | ⟨hb1, _⟩ <;> rw [hb1] <;> exact h2
  have hfire : (Board.atPos
      (Board.updatePos b old (fun g => { g with players := g.players.erase p.name })) c).is_fire
      = (Board.atPos b c).is_fire := by
    rcases hb1 with hb1 | ⟨hb1, _⟩ <;> rw [hb1]
  have hsnd : (FieldState.player_enters b c p).2 =
      if p.has_key then
        { p with health := p.health - (if (Board.atPos b c).is_fire then 1 else 0),
                 is_win := true }
      else { p with health := 0 } := by
    rw [FieldState.player_enters_move b c p old hw h4]
    rw [FieldState.effect_on_player_golem _ p hgol, hfire]
  obtain ⟨_, hh, hwin, _, _, _, _, _, hcur'⟩ :=
    Player.current_field_set_advance b p c h1 hav
  refine ⟨?_, ?_, hcur'⟩
  · intro hkey
    rw [hwin, hh, hsnd]
    simp [hkey]
  · intro hkey
    constructor
    · rw [hh, hsnd]
      simp [hkey]
    · rw [hwin, hsnd]
      simp [hkey]

-- ### C8

/-- C8: the three no-op failures — heal with no medicine, strike with no other
occupant on the tile, take-key on a keyless tile — change no player or board
state at all and spend no action. -/
theorem C8_noop_failures :
    (∀ p : PlayerState, p.number_of_medicine = 0 → Player.heal p = p) ∧
    (∀ (g : GameState) (n : String) (self : PlayerState) (c : Nat × Nat),
        g.players.find? (fun q => q.name = n) = some self →
        self._current_field = some c →
        (Board.atPos g.board c).players.length ≤ 1 →
        Player.strike_all_in_the_field g n = g) ∧
    (∀ (b : BoardState) (p : PlayerState) (c : Nat × Nat),
        p._current_field = some c →
        (Board.atPos b c)._has_key = false →
        Player.take_key b p = (b, p)) := by
  refine ⟨?_, ?_, ?_⟩
  · intro p h
    unfold Player.heal
    rw [h]
    simp
  · intro g n self c h1 h2 h3
    unfold Player.strike_all_in_the_field
    rw [h1]
    dsimp only
    rw [h2]
    dsimp only
    rw [if_neg (by omega : ¬ 1 < (Board.atPos g.board c).players.length)]
  · intro b p c h1 h2
    unfold Player.take_key
    rw [h1]
    dsimp only
    rw [h2]
    simp

/-- Witness for C8: concrete no-medicine heal, lone strike and keyless
take-key on the fresh board, all strict no-ops. -/
theorem C8_noop_failures_witness :
    Player.heal (mkPlayer "A" 2 [] (some (4, 1)) 1 0 false) =
      mkPlayer "A" 2 [] (some (4, 1)) 1 0 false ∧
    Player.strike_all_in_the_field
        ⟨Game.newBoard, [mkPlayer "A" 5 [] (some (4, 1)) 1 3 false]⟩ "A" =
      ⟨Game.newBoard, [mkPlayer "A" 5 [] (some (4, 1)) 1 3 false]⟩ ∧
    Player.take_key Game.newBoard (mkPlayer "A" 5 [] (some (4, 1)) 1 3 false) =
      (Game.newBoard, mkPlayer "A" 5 [] (some (4, 1)) 1 3 false) :=
  ⟨C8_noop_failures.1 (mkPlayer "A" 2 [] (some (4, 1)) 1 0 false) rfl,
   C8_noop_failures.2.1 ⟨Game.newBoard, [mkPlayer "A" 5 [] (some (4, 1)) 1 3 false]⟩
     "A" (mkPlayer "A" 5 [] (some (4, 1)) 1 3 false) (4, 1)
     (by decide) rfl (by decide),
   C8_noop_failures.2.2 Game.newBoard (mkPlayer "A" 5 [] (some (4, 1)) 1 3 false)
     (4, 1) rfl (by decide)⟩

-- ### C10

/-- C10: `hurt` decrements health with no lower clamp, so striking all
occupants of a tile that include a still-rostered player at 0 health drives
that player to -1 — below the 0..5 range the snapshot schema declares. -/
theorem C10_health_goes_negative :
    (∀ (p : PlayerState) (d : Int), (Player.hurt p d).health = p.health - d) ∧
    (∀ (b : BoardState) (self q : PlayerState) (c : Nat × Nat),
        self.name ≠ q.name →
        self._current_field = some c →
        (Board.atPos b c).players = [self.name, q.name] →
        q.health = 0 →
        Player.strike_all_in_the_field ⟨b, [self, q]⟩ self.name =
          ⟨b, [Player.spend_action self 1, Player.hurt q 1]⟩ ∧
        (Player.hurt q 1).health = -1 ∧ (Player.hurt q 1).health < 0) := by
  refine ⟨fun p d => rfl, ?_⟩
  intro b self q c hne hcur htile hq
  have hne' : q.name ≠ self.name := fun hh => hne hh.symm
  refine ⟨?_, by simp [Player.hurt, hq], by simp [Player.hurt, hq]⟩
  unfold Player.strike_all_in_the_field
  have hfind : List.find? (fun r => r.name = self.name) [self, q] = some self :=
    List.find?_cons_of_pos _ (by simp)
  rw [hfind]
  dsimp only
  rw [hcur]
  dsimp only
  simp only [htile, List.length_cons, List.length_nil]
  rw [if_pos (by omega)]
  simp [hne, hne', Player.hurt, Player.spend_action]

/-- Witness for C10: on the fresh board, "A" strikes the co-located dead "B"
(health 0): "B" ends at -1 health. -/
theorem C10_health_goes_negative_witness :
    (Player.hurt (mkPlayer "B" 0 [] (some (4, 1)) 1 3 false) 3).health = 0 - 3 ∧
    Player.strike_all_in_the_field
        ⟨Board.updatePos Game.newBoard (4, 1)
            (fun f => { f with players := ["A", "B"] }),
          [mkPlayer "A" 5 [] (some (4, 1)) 1 3 false,
           mkPlayer "B" 0 [] (some (4, 1)) 1 3 false]⟩ "A" =
      ⟨Board.updatePos Game.newBoard (4, 1)
          (fun f => { f with players := ["A", "B"] }),
        [Player.spend_action (mkPlayer "A" 5 [] (some (4, 1)) 1 3 false) 1,
         Player.hurt (mkPlayer "B" 0 [] (some (4, 1)) 1 3 false) 1]⟩ ∧
    (Player.hurt (mkPlayer "B" 0 [] (some (4, 1)) 1 3 false) 1).health = -1 :=
  ⟨C10_health_goes_negative.1 (mkPlayer "B" 0 [] (some (4, 1)) 1 3 false) 3,
   (C10_health_goes_negative.2
      (Board.updatePos Game.newBoard (4, 1) (fun f => { f with players := ["A", "B"] }))
      (mkPlayer "A" 5 [] (some (4, 1)) 1 3 false)
      (mkPlayer "B" 0 [] (some (4, 1)) 1 3 false)
      (4, 1) (by decide) rfl (by decide) rfl).1,
   ((C10_health_goes_negative.2
      (Board.updatePos Game.newBoard (4, 1) (fun f => { f with players := ["A", "B"] }))
      (mkPlayer "A" 5 [] (some (4, 1)) 1 3 false)
      (mkPlayer "B" 0 [] (some (4, 1)) 1 3 false)
      (4, 1) (by decide) rfl (by decide) rfl).2).1⟩

/-- Witness for C7: on the real board, entering the Golem tile `(1,8)` from
`(1,7)` wins with the key (health untouched, the tile not burning) and kills
without it. -/
theorem C7_golem_terminal_witness :
    ((Player.current_field_set Game.newBoard
        (mkPlayer "A" 4 [] (some (1, 7)) 1 3 true) (1, 8)).2.is_win = true ∧
      (Player.current_field_set Game.newBoard
        (mkPlayer "A" 4 [] (some (1, 7)) 1 3 true) (1, 8)).2.health =
          4 - (if (Board.atPos Game.newBoard (1, 8)).is_fire then 1 else 0)) ∧
    ((Player.current_field_set Game.newBoard
        (mkPlayer "B" 4 [] (some (1, 7)) 1 3 false) (1, 8)).2.health = 0 ∧
      (Player.current_field_set Game.newBoard
        (mkPlayer "B" 4 [] (some (1, 7)) 1 3 false) (1, 8)).2.is_win =
          (mkPlayer "B" 4 [] (some (1, 7)) 1 3 false).is_win) :=
  ⟨(C7_golem_terminal Game.newBoard (mkPlayer "A" 4 [] (some (1, 7)) 1 3 true)
      (1, 8) (1, 7) (by decide) (by decide) (by decide) rfl).1 rfl,
   ((C7_golem_terminal Game.newBoard (mkPlayer "B" 4 [] (some (1, 7)) 1 3 false)
      (1, 8) (1, 7) (by decide) (by decide) (by decide) rfl).2).1 rfl⟩

-- ### C3

/-- C3 counterexample: in a fresh game the lone player walks
(4,1)→(4,2)→(3,2)→(3,3)→(2,3)→(3,3)→(3,4).  The orange tile (2,3) enters the
previous-tiles list when the player leaves it, but the next white→white move
replaces the WHOLE list with the old white tile, removing the orange tile —
the claim says an orange tile, once in the list, is never removed. -/
theorem C3_counterexample :
    (2, 3) ∈ Game.ORANGE_FIELDS ∧
    (Board.atPos Game.newBoard (2, 3)).is_white = false ∧
    Player.is_alive c3_s5.2 = true ∧
    (2, 3) ∈ c3_s5.2.previous_fields ∧
    Player.is_alive c3_s6.2 = true ∧
    (2, 3) ∉ c3_s6.2.previous_fields ∧
    c3_s6.2.previous_fields = [(3, 3)] := by
  decide

/-- `player_enters` only mutates the entering player's health, win flag and —
through `effect_on_player` — nothing else: name, action/medicine budgets, key,
escape flag, pointer and previous list are unchanged. -/
theorem FieldState.player_enters_player_static (b : BoardState) (c : Nat × Nat)
    (p : PlayerState) :
    (FieldState.player_enters b c p).2.previous_fields = p.previous_fields ∧
    (FieldState.player_enters b c p).2._current_field = p._current_field ∧
    (FieldState.player_enters b c p).2.name = p.name ∧
    (FieldState.player_enters b c p).2.number_of_actions = p.number_of_actions ∧
    (FieldState.player_enters b c p).2.number_of_medicine = p.number_of_medicine ∧
    (FieldState.player_enters b c p).2.has_key = p.has_key ∧
    (FieldState.player_enters b c p).2.is_escaped = p.is_escaped := by
  unfold FieldState.player_enters
  split
  · simp [Player.hurt]
  · rcases hc : p._current_field with _ | old
    · simp [hc]
    · dsimp only
      obtain ⟨h1, h2, h3, h4, h5, h6, h7⟩ := FieldState.effect_on_player_static
        (Board.atPos (Board.updatePos b old
          (fun g => { g with players := g.players.erase p.name })) c) p
      exact ⟨h2, h1.trans hc, h3, h4, h6, h5, h7⟩

/-- The `current_field` setter never changes any tile's whiteness. -/
theorem Player.current_field_set_white_stable (b : BoardState) (p : PlayerState)
    (c q : Nat × Nat) :
    (Board.atPos (Player.current_field_set b p c).1 q).is_white =
      (Board.atPos b q).is_white := by
  unfold Player.current_field_set
  by_cases h : c ∈ p.previous_fields
  · rw [if_pos h]
  · rw [if_neg h]
    dsimp only
    split
    · exact (FieldState.player_enters_board_static b c p q).1
    · exact (FieldState.player_enters_board_static b c p q).1

/-- C3 (amended): the previous-tiles list keeps at most one white tile, but
orange memory is NOT permanent: it survives only until the next movement from
a white tile onto a white tile, which resets the whole list to exactly the old
white tile, discarding every remembered orange tile.  (Whiteness is measured
on `b`; the setter never changes whiteness, conjunct 1.) -/
theorem C3_amended_white_memory (b : BoardState) (p : PlayerState) (c : Nat × Nat) :
    (∀ q, (Board.atPos (Player.current_field_set b p c).1 q).is_white =
        (Board.atPos b q).is_white) ∧
    (whiteCountIn b p.previous_fields ≤ 1 →
      whiteCountIn b (Player.current_field_set b p c).2.previous_fields ≤ 1) ∧
    (∀ old, c ∉ p.previous_fields → p._current_field = some old →
      (Board.atPos b c).is_available = true →
      (Board.atPos b c).kind ≠ FieldKind.wall →
      (Board.atPos b c).is_white = true →
      (Board.atPos b old).is_white = true →
      (Player.current_field_set b p c).2.previous_fields = [old]) := by
  refine ⟨fun q => Player.current_field_set_white_stable b p c q, ?_, ?_⟩
  · intro hcount
    unfold Player.current_field_set
    by_cases h : c ∈ p.previous_fields
    · rw [if_pos h]
      exact hcount
    · rw [if_neg h]
      dsimp only
      have hprev := (FieldState.player_enters_player_static b c p).1
      split
      · rcases hc : (FieldState.player_enters b c p).2._current_field with _ | old
        · dsimp only
          exact hprev ▸ hcount
        · dsimp only
          split
          · split
            · rename_i hwold
              have : (Board.atPos b old).is_white = true := by
                rw [← (FieldState.player_enters_board_static b c p old).1]
                exact hwold
              simp [whiteCountIn, List.filter, this]
            · rename_i hwold
              have hbold : (Board.atPos b old).is_white = false := by
                rw [← (FieldState.player_enters_board_static b c p old).1]
                exact Bool.not_eq_true _ ▸ (by simpa using hwold)
              rw [hprev]
              simp only [whiteCountIn, List.filter_append, List.length_append]
              have : (List.filter (fun q => (Board.atPos b q).is_white) [old]).length = 0 := by
                simp [List.filter, hbold]
              simp only [whiteCountIn] at hcount
              omega
          · exact hprev ▸ hcount
      · exact hprev ▸ hcount
  · intro old hmem hcur hav hwall hwc hwold
    have hav' : (Board.atPos (FieldState.player_enters b c p).1 c).is_available = true := by
      rw [(FieldState.player_enters_board_static b c p c).2.2.2]; exact hav
    have hwc' : (Board.atPos (FieldState.player_enters b c p).1 c).is_white = true := by
      rw [(FieldState.player_enters_board_static b c p c).1]; exact hwc
    have hwold' : (Board.atPos (FieldState.player_enters b c p).1 old).is_white = true := by
      rw [(FieldState.player_enters_board_static b c p old).1]; exact hwold
    have hc2 : (FieldState.player_enters b c p).2._current_field = some old := by
      rw [(FieldState.player_enters_player_static b c p).2.1]; exact hcur
    unfold Player.current_field_set
    rw [if_neg hmem]
    dsimp only
    rw [if_pos hav', hc2]
    dsimp only
    rw [if_pos hwc', if_pos hwold']

/-- Witness for C3 (amended): a player with one white and one orange tile
remembered moves white→white; whiteness is stable, the white count stays ≤ 1,
and the list collapses to exactly the old white tile. -/
theorem C3_amended_white_memory_witness :
    (Board.atPos (Player.current_field_set Game.newBoard
        (mkPlayer "A" 5 [(3, 2), (2, 3)] (some (3, 3)) 1 3 false) (3, 4)).1
        (2, 3)).is_white = (Board.atPos Game.newBoard (2, 3)).is_white ∧
    whiteCountIn Game.newBoard (Player.current_field_set Game.newBoard
        (mkPlayer "A" 5 [(3, 2), (2, 3)] (some (3, 3)) 1 3 false)
        (3, 4)).2.previous_fields ≤ 1 ∧
    (Player.current_field_set Game.newBoard
        (mkPlayer "A" 5 [(3, 2), (2, 3)] (some (3, 3)) 1 3 false)
        (3, 4)).2.previous_fields = [(3, 3)] :=
  ⟨(C3_amended_white_memory Game.newBoard
      (mkPlayer "A" 5 [(3, 2), (2, 3)] (some (3, 3)) 1 3 false) (3, 4)).1 (2, 3),
   (C3_amended_white_memory Game.newBoard
      (mkPlayer "A" 5 [(3, 2), (2, 3)] (some (3, 3)) 1 3 false) (3, 4)).2.1
      (by decide),
   (C3_amended_white_memory Game.newBoard
      (mkPlayer "A" 5 [(3, 2), (2, 3)] (some (3, 3)) 1 3 false) (3, 4)).2.2
      (3, 3) (by decide) rfl (by decide) (by decide) (by decide) (by decide)⟩

-- ### C4

/-- C4 counterexample: a player standing on the edge tile (1,0) (an available
EmptySpace) who moves left — off the grid — is NOT stopped with an error and
unchanged state: numpy indexing wraps `(1,-1)` to the wall `(1,9)`, the player
takes 1 damage and the action is consumed.  And a player on (5,7) moving down
(index (6,7), past the bound) hits an uncaught IndexError: the program aborts
instead of reporting and continuing the turn. -/
theorem C4_counterexample :
    Game.turn_move Game.newBoard (mkPlayer "A" 5 [] (some (1, 0)) 1 3 false) (0, -1) =
      some (Game.newBoard,
        { mkPlayer "A" 5 [] (some (1, 0)) 1 3 false with
            health := 4, number_of_actions := 0 }) ∧
    { mkPlayer "A" 5 [] (some (1, 0)) 1 3 false with
        health := 4, number_of_actions := 0 } ≠
      mkPlayer "A" 5 [] (some (1, 0)) 1 3 false ∧
    Game.turn_move Game.newBoard (mkPlayer "B" 5 [] (some (5, 7)) 1 3 false) (1, 0) =
      none := by
  refine ⟨?_, by decide, ?_⟩ <;> rfl

/-- C4 (amended): there is no boundary-violation check.  `Game.turn` resolves
the move target with numpy integer indexing on the `h × w` grid: the lookup
raises an uncaught `IndexError` (the program aborts, the state is lost) iff
some component falls outside `[-dim, dim)`; otherwise a negative component
wraps to the opposite edge and the move proceeds against the wrapped tile like
any ordinary move (`player.move`, which mutates state and spends the action). -/
theorem C4_amended_numpy_move (b : BoardState) (h w : Nat)
    (hh : b.grid.length = h) (hw : ∀ row ∈ b.grid, row.length = w) :
    (∀ i j : Int, Board.getItem b (i, j) = none ↔
        (i < -(h : Int) ∨ (h : Int) ≤ i ∨ j < -(w : Int) ∨ (w : Int) ≤ j)) ∧
    (∀ i j : Int, ¬(i < -(h : Int) ∨ (h : Int) ≤ i ∨ j < -(w : Int) ∨ (w : Int) ≤ j) →
        Board.getItem b (i, j) =
          Board.getItem b (if i < 0 then i + h else i, if j < 0 then j + w else j)) ∧
    (∀ (p : PlayerState) (d : Int × Int) (c : Nat × Nat),
        p._current_field = some c →
        Board.getItem b ((c.1 : Int) + d.1, (c.2 : Int) + d.2) = none →
        Game.turn_move b p d = none) ∧
    (∀ (p : PlayerState) (d : Int × Int) (c : Nat × Nat) (f : FieldState),
        p._current_field = some c →
        Board.getItem b ((c.1 : Int) + d.1, (c.2 : Int) + d.2) = some f →
        Game.turn_move b p d = some (Player.move b p f.position)) := by
  have hrow : ∀ i : Int, ¬(i < -(h : Int) ∨ (h : Int) ≤ i) →
      ∃ row, b.grid[(if i < 0 then i + h else i).toNat]? = some row ∧
        row.length = w := by
    intro i hi
    push_neg at hi
    have hlt : (if i < 0 then i + h else i).toNat < b.grid.length := by
      rw [hh]
      split <;> omega
    exact ⟨b.grid[(if i < 0 then i + h else i).toNat],
      List.getElem?_eq_getElem hlt, hw _ (List.getElem_mem hlt)⟩
  refine ⟨?_, ?_, ?_, ?_⟩
  · intro i j
    by_cases hi : i < -(h : Int) ∨ (h : Int) ≤ i
    · unfold Board.getItem
      rw [hh, if_pos hi]
      tauto
    · obtain ⟨row, hr, hrl⟩ := hrow i hi
      unfold Board.getItem
      rw [hh, if_neg hi, hr]
      dsimp only
      rw [hrl]
      by_cases hj : j < -(w : Int) ∨ (w : Int) ≤ j
      · rw [if_pos hj]
        tauto
      · rw [if_neg hj]
        push_neg at hi hj
        have hjl : (if j < 0 then j + w else j).toNat < row.length := by
          rw [hrl]
          split <;> omega
        rw [List.getElem?_eq_getElem hjl]
        constructor
        · intro hcontra
          exact absurd hcontra (by simp)
        · intro hcontra
          rcases hcontra with hc | hc | hc | hc <;> omega
  · intro i j hij
    have hi : ¬(i < -(h : Int) ∨ (h : Int) ≤ i) := by tauto
    have hj : ¬(j < -(w : Int) ∨ (w : Int) ≤ j) := by tauto
    push_neg at hi hj
    obtain ⟨row, hr, hrl⟩ := hrow i (by omega)
    have hi' : ¬((if i < 0 then i + h else i) < -(h : Int) ∨
        (h : Int) ≤ (if i < 0 then i + h else i)) := by
      split <;> omega
    have hieq : (if (if i < 0 then i + h else i) < 0
        then (if i < 0 then i + h else i) + h
        else (if i < 0 then i + h else i)) = (if i < 0 then i + h else i) := by
      have : ¬((if i < 0 then i + h else i) < 0) := by split <;> omega
      rw [if_neg this]
    unfold Board.getItem
    rw [hh, if_neg (by omega : ¬(i < -(h : Int) ∨ (h : Int) ≤ i)), if_neg hi']
    rw [hieq, hr]
    dsimp only
    rw [hrl]
    have hj' : ¬((if j < 0 then j + w else j) < -(w : Int) ∨
        (w : Int) ≤ (if j < 0 then j + w else j)) := by
      split <;> omega
    have hjeq : (if (if j < 0 then j + w else j) < 0
        then (if j < 0 then j + w else j) + w
        else (if j < 0 then j + w else j)) = (if j < 0 then j + w else j) := by
      have : ¬((if j < 0 then j + w else j) < 0) := by split <;> omega
      rw [if_neg this]
    rw [if_neg (by omega : ¬(j < -(w : Int) ∨ (w : Int) ≤ j)), if_neg hj', hjeq]
  · intro p d c hc hget
    unfold Game.turn_move
    rw [hc]
    dsimp only
    rw [hget]
  · intro p d c f hc hget
    unfold Game.turn_move
    rw [hc]
    dsimp only
    rw [hget]

/-- Witness for C4 (amended): on the real 6×10 board, index (6,1) aborts,
(-1,1) wraps to (5,1), and a concrete off-the-bottom move is a program abort. -/
theorem C4_amended_numpy_move_witness :
    Board.getItem Game.newBoard (6, 1) = none ∧
    Board.getItem Game.newBoard (-1, 1) = Board.getItem Game.newBoard (5, 1) ∧
    Game.turn_move Game.newBoard (mkPlayer "B" 5 [] (some (5, 7)) 1 3 false) (1, 0) =
      none := by
  have hb := C4_amended_numpy_move Game.newBoard 6 10 (by decide)
    (by intro row hr; fin_cases hr <;> rfl)
  refine ⟨(hb.1 6 1).2 (by omega), ?_, hb.2.2.1 _ _ (5, 7) rfl (by rfl)⟩
  have h2 := hb.2.1 (-1) 1 (by omega)
  simpa using h2

-- ### C5

/-- C5: with fewer than 4 white tiles `Board.burn` is a fatal error
(`np.random.choice(..., 4, replace=False)` raises); otherwise, for any draw
of 4 distinct white-tile positions, the draw becomes the new burning set and
afterwards a tile burns iff it was drawn — every previously burning tile not
drawn again is extinguished (boards whose burning tiles are white, as the
game always produces, and whose tile positions are distinct). -/
theorem C5_burn_full_replacement :
    (∀ (b : BoardState) (pick : List (Nat × Nat)),
        ((b.grid.flatten).filter (fun f => f.is_white)).length < 4 →
        Board.burn b pick = none) ∧
    (∀ (b : BoardState) (pick : List (Nat × Nat)),
        4 ≤ ((b.grid.flatten).filter (fun f => f.is_white)).length →
        ((b.grid.flatten).map (fun f => f.position)).Nodup →
        (∀ f ∈ b.grid.flatten, f.is_fire = true → f.is_white = true) →
        pick.length = 4 → pick.Nodup →
        (∀ c ∈ pick, ∃ f ∈ b.grid.flatten, f.position = c ∧ f.is_white = true) →
        ∃ b', Board.burn b pick = some b' ∧
          b'.burning_fields = pick ∧
          ∀ f ∈ b'.grid.flatten, (f.is_fire = true ↔ f.position ∈ pick)) := by
  constructor
  · intro b pick hlen
    unfold Board.burn
    rw [if_pos hlen]
  · intro b pick hlen hpos hfire hplen hpnd hpwhite
    unfold Board.burn
    rw [if_neg (by omega : ¬ ((b.grid.flatten).filter (fun f => f.is_white)).length < 4)]
    refine ⟨_, rfl, rfl, ?_⟩
    intro f hf
    rw [← List.map_flatten] at hf
    obtain ⟨g, hg, hfg⟩ := List.mem_map.1 hf
    by_cases hgw : g.is_white = true
    · subst hfg
      simp only [hgw, if_true]
      simp
    · have hgw' : g.is_white = false := by
        cases hw : g.is_white
        · rfl
        · exact absurd hw hgw
      subst hfg
      simp only [hgw', Bool.false_eq_true, if_false]
      have hnofire : g.is_fire = false := by
        cases hball : g.is_fire
        · rfl
        · exact absurd (hfire g hg hball) (by simp [hgw'])
      rw [hnofire]
      simp only [Bool.false_eq_true, false_iff]
      intro hmem
      obtain ⟨g2, hg2, hg2pos, hg2w⟩ := hpwhite _ hmem
      have : g2 = g := List.inj_on_of_nodup_map hpos hg2 hg hg2pos
      rw [this] at hg2w
      exact absurd hg2w (by simp [hgw'])

/-- Witness for C5: on the real board (13 white tiles, none burning), the
draw {(1,6),(1,7),(2,6),(3,2)} ignites exactly those four tiles; and a 2×1
all-wall board has no white tile, so the draw is fatal. -/
theorem C5_burn_full_replacement_witness :
    Board.burn { grid := [[mkField 'w' (0, 0)], [mkField 'w' (1, 0)]],
                 key_location := none, burning_fields := [] } [] = none ∧
    ∃ b', Board.burn Game.newBoard [(1, 6), (1, 7), (2, 6), (3, 2)] = some b' ∧
      b'.burning_fields = [(1, 6), (1, 7), (2, 6), (3, 2)] ∧
      ∀ f ∈ b'.grid.flatten,
        (f.is_fire = true ↔ f.position ∈ [(1, 6), (1, 7), (2, 6), (3, 2)]) :=
  ⟨C5_burn_full_replacement.1 _ [] (by decide),
   C5_burn_full_replacement.2 Game.newBoard [(1, 6), (1, 7), (2, 6), (3, 2)]
     (by decide) (by decide) (by decide) (by decide) (by decide) (by decide)⟩

-- ### C9 machinery: closed form of board construction

/-- One burning-loop step at the cell level composes into membership. -/
theorem burnCell_step (p : Nat × Nat) (l : List (Nat × Nat)) (f : FieldState) :
    burnCell l (if f.position = p then { f with is_fire := true } else f) =
      burnCell (p :: l) f := by
  by_cases hp : f.position = p <;> simp [burnCell, hp]

/-- Closed form of the burning-fields loop of `create_board`. -/
theorem burnFold_closed (l : List (Nat × Nat)) (b : BoardState) :
    l.foldl burnStep b =
      { grid := b.grid.map (fun row => row.map (burnCell l)),
        key_location := b.key_location,
        burning_fields := b.burning_fields ++ l } := by
  induction l generalizing b with
  | nil =>
      simp only [List.foldl_nil, List.append_nil]
      have hcell : ∀ f : FieldState, burnCell [] f = f := by
        intro f
        simp [burnCell]
      have hrow : ∀ row : List FieldState, row.map (burnCell []) = row := by
        intro row
        rw [List.map_congr_left (fun f _ => hcell f), List.map_id']
      rw [List.map_congr_left (fun row _ => hrow row), List.map_id']
  | cons p l ih =>
      rw [List.foldl_cons, ih]
      unfold burnStep Board.updatePos
      dsimp only
      congr 1
      · rw [List.map_map]
        apply List.map_congr_left
        intro row _
        rw [Function.comp_apply, List.map_map]
        exact List.map_congr_left (fun f _ => burnCell_step p l f)
      · simp

/-- Closed form of `Board.create`: render + orange, then the key flag, then
the fire flags, with `key_location` and `burning_fields` set verbatim. -/
theorem Board.create_closed (t : List (List Char)) (o : List (Nat × Nat))
    (k : Option (Nat × Nat)) (burn : List (Nat × Nat)) :
    Board.create t o k burn =
      { grid := (renderGrid t o).map (fun row => row.map
          (fun f => burnCell burn (keyCell k f))),
        key_location := k,
        burning_fields := burn } := by
  unfold Board.create renderGrid
  dsimp only
  cases k with
  | none =>
      rw [burnFold_closed]
      simp only [List.nil_append]
      congr 1
  | some kp =>
      unfold FieldState.has_key_set Board.updatePos
      dsimp only
      rw [burnFold_closed]
      simp only [List.nil_append]
      congr 1
      rw [List.map_map]
      apply List.map_congr_left
      intro row _
      rw [Function.comp_apply, List.map_map]
      apply List.map_congr_left
      intro f _
      rfl

/-- Every cell of the static grid starts with no fire, no key and no
occupants. -/
theorem staticGrid_cells_clean :
    ∀ f ∈ staticGrid.flatten,
      f.is_fire = false ∧ f._has_key = false ∧ f.players = [] := by
  decide

/-- On the game's fixed template, `Board.create` yields exactly the reachable
board shape with empty occupant lists: `key_location` and `burning_fields`
verbatim, the key flag on the key tile, fire flags on the burning tiles. -/
theorem Game.create_reachable (k : Option (Nat × Nat)) (burn : List (Nat × Nat)) :
    Board.create Game.ORIGINAL_BOARD Game.ORANGE_FIELDS k burn =
      mkReachableBoard k burn (fun _ => []) := by
  rw [Board.create_closed]
  unfold mkReachableBoard
  congr 1
  apply List.map_congr_left
  intro row hrow
  apply List.map_congr_left
  intro f hf
  obtain ⟨h1, h2, h3⟩ := staticGrid_cells_clean f (List.mem_flatten.2 ⟨row, hrow, hf⟩)
  cases k with
  | none => simp [burnCell, keyCell, h1, h2, h3]
  | some kp =>
      by_cases hpos : f.position = kp
      · simp [burnCell, keyCell, h1, h2, h3, hpos]
      · have : ¬ kp = f.position := fun hh => hpos hh.symm
        simp [burnCell, keyCell, h1, h2, h3, hpos, this]

/-- One occupant-registration step at the cell level composes into a filter. -/
theorem appendCell_step (p : PlayerState) (qs : List PlayerState) (f : FieldState) :
    appendCell qs
      (if f.position = p._current_field.getD (0, 0)
        then { f with players := f.players ++ [p.name] } else f) =
      appendCell (p :: qs) f := by
  by_cases hp : f.position = p._current_field.getD (0, 0)
  · rw [if_pos hp]
    unfold appendCell
    dsimp only
    rw [List.filter_cons_of_pos (by simp only [decide_eq_true_eq]; exact hp.symm)]
    simp
  · rw [if_neg hp]
    unfold appendCell
    dsimp only
    rw [List.filter_cons_of_neg (by simp; exact fun hh => hp hh.symm)]

/-- Closed form of `appendAll`: every loaded player's name lands at the end of
the occupant list of its tile, in roster order; nothing else changes. -/
theorem appendAll_closed (qs : List PlayerState) (B : BoardState) :
    appendAll B qs =
      { grid := B.grid.map (fun row => row.map (appendCell qs)),
        key_location := B.key_location,
        burning_fields := B.burning_fields } := by
  induction qs generalizing B with
  | nil =>
      unfold appendAll
      simp only [List.foldl_nil]
      have hcell : ∀ f : FieldState, appendCell [] f = f := by
        intro f
        simp [appendCell]
      have hrow : ∀ row : List FieldState, row.map (appendCell []) = row := by
        intro row
        rw [List.map_congr_left (fun f _ => hcell f), List.map_id']
      rw [List.map_congr_left (fun row _ => hrow row), List.map_id']
  | cons p qs ih =>
      unfold appendAll
      rw [List.foldl_cons]
      unfold appendAll at ih
      rw [ih]
      unfold Board.updatePos
      dsimp only
      congr 1
      rw [List.map_map]
      apply List.map_congr_left
      intro row _
      rw [Function.comp_apply, List.map_map]
      exact List.map_congr_left (fun f _ => appendCell_step p qs f)

/-- `Player.to_json` inverts the empty-list-to-None encoding of
`previous_fields`. -/
theorem to_json_prev_getD (l : List (Nat × Nat)) :
    (if l = [] then none else some l).getD ([] : List (Nat × Nat)) = l := by
  by_cases h : l = [] <;> simp [h]

/-- `Player.__init__` for a fresh (placeless) player on an available non-wall
tile not in its previous list: the player is appended to the tile's occupant
list and every passed attribute is stored verbatim. -/
theorem Player.init_fresh (b : BoardState) (name : String) (cur : Nat × Nat)
    (prev : Option (List (Nat × Nat))) (h a m : Int) (key : Bool)
    (h1 : cur ∉ prev.getD [])
    (h2 : (Board.atPos b cur).kind ≠ FieldKind.wall)
    (h3 : (Board.atPos b cur).is_available = true) :
    Player.init b name cur prev h a m key =
      (Board.updatePos b cur (fun g => { g with players := g.players ++ [name] }),
       { name := name, health := h, previous_fields := prev.getD [],
         _current_field := some cur, number_of_actions := a,
         number_of_medicine := m, has_key := key, is_win := false,
         is_escaped := false }) := by
  unfold Player.init Player.current_field_set
  dsimp only
  rw [if_neg h1]
  unfold FieldState.player_enters
  rw [if_neg h2]
  dsimp only
  have hav : (Board.atPos (Board.updatePos b cur
      (fun g => { g with players := g.players ++ [name] })) cur).is_available = true := by
    rcases Board.atPos_updatePos b cur cur
      (fun g => { g with players := g.players ++ [name] }) with hh | ⟨hh, _⟩ <;>
      rw [hh] <;> exact h3
  rw [if_pos hav]

/-- Two reachable boards differing only in occupant lists agree on every
tile's kind and availability. -/
theorem mkReachableBoard_atPos_static (k : Option (Nat × Nat))
    (burn : List (Nat × Nat)) (occ occ2 : (Nat × Nat) → List String) (c : Nat × Nat) :
    (Board.atPos (mkReachableBoard k burn occ) c).kind =
      (Board.atPos (mkReachableBoard k burn occ2) c).kind ∧
    (Board.atPos (mkReachableBoard k burn occ) c).is_available =
      (Board.atPos (mkReachableBoard k burn occ2) c).is_available := by
  unfold mkReachableBoard Board.atPos
  dsimp only
  simp only [List.getElem?_map]
  cases hg : staticGrid[c.1]? with
  | none => simp
  | some row =>
      simp only [Option.map_some', Option.getD_some, List.getElem?_map]
      cases hr : row[c.2]? with
      | none => simp
      | some f => simp

/-- `playerWfB` does not depend on the occupant lists. -/
theorem playerWfB_occ_transfer (k : Option (Nat × Nat)) (burn : List (Nat × Nat))
    (occ occ2 : (Nat × Nat) → List String) (p : PlayerState)
    (h : playerWfB (mkReachableBoard k burn occ) p = true) :
    playerWfB (mkReachableBoard k burn occ2) p = true := by
  unfold playerWfB at h ⊢
  rcases hc : p._current_field with _ | c
  · rw [hc] at h
    simp at h
  · rw [hc] at h
    dsimp only at h ⊢
    obtain ⟨st1, st2⟩ := mkReachableBoard_atPos_static k burn occ occ2 c
    rw [← st1, ← st2]
    exact h

/-- `playerWfB` survives occupant-list registration on any tile. -/
theorem playerWfB_update_stable (B : BoardState) (c0 : Nat × Nat) (nm : String)
    (p : PlayerState) (h : playerWfB B p = true) :
    playerWfB (Board.updatePos B c0
      (fun g => { g with players := g.players ++ [nm] })) p = true := by
  unfold playerWfB at h ⊢
  rcases hc : p._current_field with _ | c
  · rw [hc] at h
    simp at h
  · rw [hc] at h
    dsimp only at h ⊢
    rcases Board.atPos_updatePos B c0 c
      (fun g => { g with players := g.players ++ [nm] }) with hh | ⟨hh, _⟩ <;>
      rw [hh] <;> exact h

/-- Closed form of the player-loading loop of `Game.load_game`: the board
collects every player's name on its tile in roster order, and each player is
reconstructed exactly (health, previous fields, pointer, budgets, key flag
verbatim; the terminal flags were clear in any saved state). -/
theorem load_fold_closed (qs : List PlayerState) (B : BoardState)
    (acc : List PlayerState) (hq : ∀ p ∈ qs, playerWfB B p = true) :
    (qs.map Player.to_json).foldl
      (fun (a : BoardState × List PlayerState) pj =>
        let r := Player.init a.1 pj.name pj.current_field pj.previous_fields
          pj.health pj.number_of_actions pj.number_of_medicine pj.has_key
        (r.1, a.2 ++ [r.2])) (B, acc) =
      (appendAll B qs, acc ++ qs) := by
  induction qs generalizing B acc with
  | nil => simp [appendAll]
  | cons p qs ih =>
      have hp := hq p (by simp)
      unfold playerWfB at hp
      rcases hc : p._current_field with _ | c
      · rw [hc] at hp
        simp at hp
      · rw [hc] at hp
        dsimp only at hp
        simp only [Bool.and_eq_true, decide_eq_true_eq, Bool.not_eq_true'] at hp
        obtain ⟨⟨⟨⟨hmem, hwall⟩, hav⟩, hwin⟩, hesc⟩ := hp
        have hinit : Player.init B (Player.to_json p).name
            (Player.to_json p).current_field (Player.to_json p).previous_fields
            (Player.to_json p).health (Player.to_json p).number_of_actions
            (Player.to_json p).number_of_medicine (Player.to_json p).has_key =
            (Board.updatePos B c (fun g => { g with players := g.players ++ [p.name] }),
              p) := by
          unfold Player.to_json
          dsimp only
          rw [hc]
          simp only [Option.getD_some]
          rw [Player.init_fresh B p.name c _ _ _ _ _
            (by rw [to_json_prev_getD]; exact hmem) hwall hav]
          rw [to_json_prev_getD]
          have hrec :
              ({ name := p.name, health := p.health,
                 previous_fields := p.previous_fields, _current_field := some c,
                 number_of_actions := p.number_of_actions,
                 number_of_medicine := p.number_of_medicine, has_key := p.has_key,
                 is_win := false, is_escaped := false } : PlayerState) = p := by
            cases p
            simp_all
          rw [hrec]
        simp only [List.map_cons, List.foldl_cons]
        rw [hinit]
        dsimp only
        rw [ih (Board.updatePos B c (fun g => { g with players := g.players ++ [p.name] }))
          (acc ++ [p])
          (fun q hqmem => playerWfB_update_stable B c p.name q
            (hq q (List.mem_cons_of_mem _ hqmem)))]
        have happ : appendAll B (p :: qs) =
            appendAll (Board.updatePos B c
              (fun g => { g with players := g.players ++ [p.name] })) qs := by
          unfold appendAll
          rw [List.foldl_cons, hc]
          simp only [Option.getD_some]
        rw [happ]
        simp

/-- Pointwise relations lift to `Forall₂` over two maps of the same list. -/
theorem forall₂_map_map {α : Type} {β γ : Type} (R : β → γ → Prop)
    (f : α → β) (g : α → γ) :
    ∀ (l : List α), (∀ x ∈ l, R (f x) (g x)) →
      List.Forall₂ R (l.map f) (l.map g)
  | [], _ => List.Forall₂.nil
  | x :: xs, h =>
      List.Forall₂.cons (h x (List.mem_cons_self x xs))
        (forall₂_map_map R f g xs (fun y hy => h y (List.mem_cons_of_mem x hy)))

-- ### C9

/-- C9: round trip.  Saving any reachable game state — the fixed static grid
decorated with a burning set, a key holder and occupant lists `occ`, plus a
roster of well-formed players whose tile occupancy agrees with `occ` — and
loading it against a board rebuilt from the fixed template reproduces every
player record exactly (name, health, previous fields, current field, action
and medicine counts, key flag), the key location, the burning list, and every
tile (same static data, fire and key flags, occupants up to list order). -/
theorem C9_round_trip (k : Option (Nat × Nat)) (burn : List (Nat × Nat))
    (occ : (Nat × Nat) → List String) (ps : List PlayerState)
    (hp : ∀ p ∈ ps, playerWfB (mkReachableBoard k burn occ) p = true)
    (hocc : ∀ f ∈ staticGrid.flatten,
        (occ f.position).Perm
          ((ps.filter (fun p => p._current_field = some f.position)).map
            (fun p => p.name))) :
    (Game.load_game (Game.save_json
        { board := mkReachableBoard k burn occ, players := ps })).players = ps ∧
    (Game.load_game (Game.save_json
        { board := mkReachableBoard k burn occ, players := ps })).board.key_location
      = k ∧
    (Game.load_game (Game.save_json
        { board := mkReachableBoard k burn occ, players := ps })).board.burning_fields
      = burn ∧
    List.Forall₂ (List.Forall₂ (fun f2 f =>
        f2.kind = f.kind ∧ f2.position = f.position ∧ f2.is_white = f.is_white ∧
        f2.is_available = f.is_available ∧ f2.is_fire = f.is_fire ∧
        f2._has_key = f._has_key ∧ f2.players.Perm f.players))
      (Game.load_game (Game.save_json
        { board := mkReachableBoard k burn occ, players := ps })).board.grid
      (mkReachableBoard k burn occ).grid := by
  have hload : Game.load_game (Game.save_json
      { board := mkReachableBoard k burn occ, players := ps }) =
      { board := appendAll (mkReachableBoard k burn (fun _ => [])) ps,
        players := ps } := by
    unfold Game.load_game Game.save_json Board.to_json
    dsimp only
    rw [show (mkReachableBoard k burn occ).key_location = k from rfl,
      show (mkReachableBoard k burn occ).burning_fields = burn from rfl]
    rw [Game.create_reachable]
    rw [load_fold_closed ps _ []
      (fun p hmem => playerWfB_occ_transfer k burn occ _ p (hp p hmem))]
    simp
  refine ⟨by rw [hload], ?_, ?_, ?_⟩
  · rw [hload]
    dsimp only
    rw [appendAll_closed]
    rfl
  · rw [hload]
    dsimp only
    rw [appendAll_closed]
    rfl
  · rw [hload]
    dsimp only
    rw [appendAll_closed]
    dsimp only
    unfold mkReachableBoard
    dsimp only
    rw [List.map_map]
    apply forall₂_map_map
    intro row hrow
    dsimp only [Function.comp_apply]
    rw [List.map_map]
    apply forall₂_map_map
    intro f0 hf0
    dsimp only [Function.comp_apply]
    refine ⟨rfl, rfl, rfl, rfl, rfl, rfl, ?_⟩
    have hfilter : ps.filter (fun p => p._current_field.getD (0, 0) = f0.position)
        = ps.filter (fun p => p._current_field = some f0.position) := by
      apply List.filter_congr
      intro q hqmem
      have hwf := hp q hqmem
      unfold playerWfB at hwf
      rcases hcq : q._current_field with _ | cq
      · rw [hcq] at hwf
        simp at hwf
      · simp only [Option.getD_some, Option.some.injEq]
    unfold appendCell
    dsimp only
    rw [List.nil_append, hfilter]
    exact (hocc f0 (List.mem_flatten.2 ⟨row, hrow, hf0⟩)).symm

/-- Witness for C9: the fresh game (key on (2,3), no fire, the single player
"A" on the start tile) survives a save/load round trip unchanged. -/
theorem C9_round_trip_witness :
    (Game.load_game (Game.save_json
        { board := mkReachableBoard (some (2, 3)) []
            (fun c => if c = (4, 1) then ["A"] else []),
          players := [mkPlayer "A" 5 [] (some (4, 1)) 1 3 false] })).players =
      [mkPlayer "A" 5 [] (some (4, 1)) 1 3 false] ∧
    (Game.load_game (Game.save_json
        { board := mkReachableBoard (some (2, 3)) []
            (fun c => if c = (4, 1) then ["A"] else []),
          players := [mkPlayer "A" 5 [] (some (4, 1)) 1 3 false] })).board.key_location
      = some (2, 3) ∧
    (Game.load_game (Game.save_json
        { board := mkReachableBoard (some (2, 3)) []
            (fun c => if c = (4, 1) then ["A"] else []),
          players := [mkPlayer "A" 5 [] (some (4, 1)) 1 3 false] })).board.burning_fields
      = [] ∧
    List.Forall₂ (List.Forall₂ (fun f2 f =>
        f2.kind = f.kind ∧ f2.position = f.position ∧ f2.is_white = f.is_white ∧
        f2.is_available = f.is_available ∧ f2.is_fire = f.is_fire ∧
        f2._has_key = f._has_key ∧ f2.players.Perm f.players))
      (Game.load_game (Game.save_json
        { board := mkReachableBoard (some (2, 3)) []
            (fun c => if c = (4, 1) then ["A"] else []),
          players := [mkPlayer "A" 5 [] (some (4, 1)) 1 3 false] })).board.grid
      (mkReachableBoard (some (2, 3)) []
        (fun c => if c = (4, 1) then ["A"] else [])).grid :=
  C9_round_trip (some (2, 3)) [] (fun c => if c = (4, 1) then ["A"] else [])
    [mkPlayer "A" 5 [] (some (4, 1)) 1 3 false] (by decide) (by decide)
